import Mathlib

/-!
Verification development for the `obx` multiplex generator.

The repository consists of two Python scripts:

* `src/gen_multiplex.py` — reads the schema catalog `internal/vault/types.go`,
  computes, per group, the union of the fields of all mapped argument structs,
  and emits `internal/vault/multiplex.go`, containing one composite struct and
  one dispatch routine per group.
* `src/patch_script.py` — a post-pass ("Collision Corrector") of five textual
  substitutions over the emitted file.

This file is a shallow embedding of both scripts.  Pure text emission is
embedded as Lean functions on `String`; the Python `re.sub`/`str.replace`
rewrites are embedded as executable scanners over `List Char`; the semantics
of the emitted Go `switch` dispatch is embedded as `dispatchSem`.  The schema
catalog `internal/vault/types.go` is not part of `src/`; claims about it are
settled over arbitrary catalogs (and, where needed, over catalogs constrained
as the spec describes them, marked "Modelled from the spec").
-/

/-- One parsed struct field, as built by `gen_multiplex.py` lines 174-179:
a record with keys `name`, `type`, `json`, `schema`. -/
structure FieldInfo where
  name : String
  type : String
  json : String
  schema : String
  deriving DecidableEq, Repr

/-- One group of the `groups` table (`gen_multiplex.py` lines 3-144): the
declared action list and the mapping table `action ↦ (handler, args struct)`,
in insertion order. -/
structure GroupEntry where
  name : String
  actions : List String
  mappings : List (String × String × String)
  deriving DecidableEq, Repr

/-- Catalog lookup: Python `structs[name]` / `name in structs`
(`gen_multiplex.py` lines 199-203, 235). -/
def lookupStruct (structs : List (String × List FieldInfo)) (n : String) :
    Option (List FieldInfo) :=
  (structs.find? (fun p => p.1 == n)).map (fun p => p.2)

/-- One step of the `unique_fields` loop body (`gen_multiplex.py` lines
204-209): insert the field if its name is not yet present; otherwise keep the
existing entry (the `elif` type-conflict branch is `pass`). -/
def insertField (acc : List FieldInfo) (f : FieldInfo) : List FieldInfo :=
  if acc.any (fun g => g.name == f.name) then acc else acc ++ [f]

/-- The `unique_fields` unification loop (`gen_multiplex.py` lines 197-209):
iterate the group's mappings in order, skip unresolved struct names, fold each
resolved struct's fields through `insertField`. -/
def uniqueFieldsAux (structs : List (String × List FieldInfo)) :
    List FieldInfo → List (String × String × String) → List FieldInfo
  | acc, [] => acc
  | acc, m :: rest =>
    match lookupStruct structs m.2.2 with
    | none => uniqueFieldsAux structs acc rest
    | some flds => uniqueFieldsAux structs (flds.foldl insertField acc) rest

/-- `unique_fields` for a group, starting from the empty map. -/
def uniqueFields (structs : List (String × List FieldInfo))
    (ms : List (String × String × String)) : List FieldInfo :=
  uniqueFieldsAux structs [] ms

/-- All fields contributed by a mapping list, in traversal order (unresolved
structs contribute nothing).  Used to state first-seen-order properties of
`uniqueFields`. -/
def allFields (structs : List (String × List FieldInfo))
    (ms : List (String × String × String)) : List FieldInfo :=
  (ms.map (fun m => (lookupStruct structs m.2.2).getD [])).flatten

/-- A single quote character, used in emitted jsonschema descriptions. -/
def squote : String := String.singleton (Char.ofNat 39)

/-- The literal `,omitempty` marker. -/
def ompStr : String := ",omitempty"

/-- Number of (possibly overlapping) occurrences of `pat` in a character
list, counted at every start position. -/
def countOcc (pat : List Char) : List Char → Nat
  | [] => 0
  | c :: r => (if pat.isPrefixOf (c :: r) then 1 else 0) + countOcc pat r

/-- A match attempt at the head of `s`: returns the replacement text and the
remainder after the match, or `none`.  Matches always consume at least one
character. -/
def litMatch (pat repl : List Char) (s : List Char) :
    Option (List Char × List Char) :=
  if pat ≠ [] ∧ pat.isPrefixOf s then some (repl, s.drop pat.length) else none

/-- Fuel-driven left-to-right scan-and-substitute, the semantics of Python
`re.sub`/`str.replace`: at each position try `m`; on a match emit the
replacement and continue after the consumed text, otherwise keep the
character and move on. -/
def scanSubF (m : List Char → Option (List Char × List Char)) :
    Nat → List Char → List Char
  | 0, s => s
  | _ + 1, [] => []
  | n + 1, c :: rest =>
    match m (c :: rest) with
    | some (repl, after) => repl ++ scanSubF m n after
    | none => c :: scanSubF m n rest

/-- Run a substitution over a string with enough fuel. -/
def runSub (m : List Char → Option (List Char × List Char)) (s : String) :
    String :=
  ⟨scanSubF m s.data.length s.data⟩

/-- Python `text.replace(pat, repl)` (all occurrences, left to right). -/
def pyReplace (s pat repl : String) : String :=
  runSub (litMatch pat.data repl.data) s

/-- The emitted json tag of a unified field (`gen_multiplex.py` line 218):
`field["json"].replace(",omitempty", "") + ",omitempty"`. -/
def jsonTagOf (f : FieldInfo) : String :=
  pyReplace f.json ompStr "" ++ ompStr

/-- One emitted composite-struct field line (`gen_multiplex.py` lines
217-224).  A field whose name equals the discriminator name `Action` is
renamed to `TagAction` with serialization key `tag_action,omitempty`. -/
def emitFieldLine (f : FieldInfo) : String :=
  let tag := if f.name == "Action" then "tag_action" ++ ompStr else jsonTagOf f
  let nm := if f.name == "Action" then "TagAction" else f.name
  "\t" ++ nm ++ " " ++ f.type ++ " `json:\"" ++ tag ++ "\" jsonschema:\"" ++
    f.schema ++ "\"`\n"

/-- The emitted discriminator field line (`gen_multiplex.py` lines 214-215):
json tag `action`, jsonschema description enumerating the group's declared
actions in order. -/
def emitDiscLine (actions : List String) : String :=
  "\tAction string `json:\"action\" jsonschema:\"Action to perform: " ++
    String.intercalate ", " (actions.map (fun a => squote ++ a ++ squote)) ++
    "\"`\n"

/-- The emitted composite struct for a group (`gen_multiplex.py` lines
212-225): comment, struct header, discriminator line, one line per unified
field in first-seen order, closing brace. -/
def emitStruct (structs : List (String × List FieldInfo)) (g : GroupEntry) :
    String :=
  "// " ++ g.name ++ "MultiplexArgs multiplexed args\n" ++
  "type " ++ g.name ++ "MultiplexArgs struct \x7b\n" ++
  emitDiscLine g.actions ++
  String.join ((uniqueFields structs g.mappings).map emitFieldLine) ++
  "\x7d\n\n"

/-- One emitted dispatch case arm (`gen_multiplex.py` lines 232-239): the
original struct is reconstructed by copying `args.<name>` for each of its
fields; an unresolved struct gets an empty literal. -/
def emitCase (structs : List (String × List FieldInfo))
    (m : String × String × String) : String :=
  "\tcase \"" ++ m.1 ++ "\":\n" ++
  "\t\tspecificArgs := " ++ m.2.2 ++ "\x7b\n" ++
  (match lookupStruct structs m.2.2 with
   | some flds =>
     String.join (flds.map (fun f => "\t\t\t" ++ f.name ++ ": args." ++
       f.name ++ ",\n"))
   | none => "") ++
  "\t\t\x7d\n" ++
  "\t\treturn v." ++ m.2.1 ++ "(ctx, req, specificArgs)\n"

/-- The emitted dispatch routine for a group (`gen_multiplex.py` lines
228-244): one case arm per mapping, plus the default arm returning the
`unknown action` error. -/
def emitHandler (structs : List (String × List FieldInfo)) (g : GroupEntry) :
    String :=
  "// " ++ g.name ++ "MultiplexHandler routes to the specific handler\n" ++
  "func (v *Vault) " ++ g.name ++
    "MultiplexHandler(ctx context.Context, req *mcp.CallToolRequest, args " ++
    g.name ++ "MultiplexArgs) (*mcp.CallToolResult, any, error) \x7b\n" ++
  "\tswitch args.Action \x7b\n" ++
  String.join (g.mappings.map (emitCase structs)) ++
  "\tdefault:\n\t\treturn nil, nil, fmt.Errorf(\"unknown action: %s\", args.Action)\n\t\x7d\n\x7d\n\n"

/-- The fixed file header (`gen_multiplex.py` lines 182-191). -/
def fileHeader : String :=
  "package vault\n\nimport (\n\t\"context\"\n\t\"fmt\"\n\n\t\"github.com/modelcontextprotocol/go-sdk/mcp\"\n)\n\n"

/-- The generation loop (`gen_multiplex.py` lines 193-244): accumulate, per
group, the composite struct and the dispatch routine onto the header. -/
def generateFor (table : List GroupEntry)
    (structs : List (String × List FieldInfo)) : String :=
  table.foldl (fun out g => out ++ emitStruct structs g ++ emitHandler structs g)
    fileHeader

/-- The embedded `groups` specification table (`gen_multiplex.py` lines
3-144), in source order.  Each mapping entry is
`(action, handler, args struct)`. -/
def groups : List GroupEntry :=
  [ ⟨"ManageNotes",
     ["read", "write", "delete", "append", "rename", "duplicate", "move"],
     [("read", "ReadNoteHandler", "ReadNoteArgs"),
      ("write", "WriteNoteHandler", "WriteNoteArgs"),
      ("delete", "DeleteNoteHandler", "DeleteNoteArgs"),
      ("append", "AppendNoteHandler", "AppendNoteArgs"),
      ("rename", "RenameNoteHandler", "RenameNoteArgs"),
      ("duplicate", "DuplicateNoteHandler", "DuplicateNoteArgs"),
      ("move", "MoveNoteHandler", "MoveArgs")]⟩,
    ⟨"EditNote",
     ["edit", "replace-section", "batch-edit"],
     [("edit", "EditNoteHandler", "EditNoteArgs"),
      ("replace-section", "ReplaceSectionHandler", "ReplaceSectionArgs"),
      ("batch-edit", "BatchEditNoteHandler", "BatchEditArgs")]⟩,
    ⟨"SearchVault",
     ["search", "advanced", "date", "regex", "tags", "headings", "inline-fields"],
     [("search", "SearchVaultHandler", "SearchArgs"),
      ("advanced", "SearchAdvancedHandler", "SearchAdvancedArgs"),
      ("date", "SearchDateHandler", "SearchDateArgs"),
      ("regex", "SearchRegexHandler", "SearchRegexArgs"),
      ("tags", "SearchByTagsHandler", "SearchTagsArgs"),
      ("headings", "SearchHeadingsHandler", "SearchHeadingsArgs"),
      ("inline-fields", "QueryInlineFieldsHandler", "SearchInlineFieldsArgs")]⟩,
    ⟨"ManagePeriodicNotes",
     ["daily", "weekly", "monthly", "quarterly", "yearly", "list-daily", "list-periodic"],
     [("daily", "DailyNoteHandler", "DailyNoteArgs"),
      ("weekly", "WeeklyNoteHandler", "WeeklyNoteArgs"),
      ("monthly", "MonthlyNoteHandler", "MonthlyNoteArgs"),
      ("quarterly", "QuarterlyNoteHandler", "QuarterlyNoteArgs"),
      ("yearly", "YearlyNoteHandler", "YearlyNoteArgs"),
      ("list-daily", "ListDailyNotesHandler", "ListPeriodicArgs"),
      ("list-periodic", "ListPeriodicNotesHandler", "ListPeriodicArgs")]⟩,
    ⟨"ManageFolders",
     ["list", "create", "delete"],
     [("list", "ListFoldersHandler", "ListDirsArgs"),
      ("create", "CreateFolderHandler", "CreateDirArgs"),
      ("delete", "DeleteFolderHandler", "DeleteDirArgs")]⟩,
    ⟨"ManageFrontmatter",
     ["get", "set", "remove", "add-alias", "add-tag"],
     [("get", "GetFrontmatterHandler", "GetFrontmatterArgs"),
      ("set", "SetFrontmatterHandler", "SetFrontmatterArgs"),
      ("remove", "RemoveFrontmatterKeyHandler", "DeleteFrontmatterArgs"),
      ("add-alias", "AddAliasHandler", "AddAliasArgs"),
      ("add-tag", "AddTagToFrontmatterHandler", "AddTagArgs")]⟩,
    ⟨"ManageTasks",
     ["list", "toggle", "complete"],
     [("list", "ListTasksHandler", "ListTasksArgs"),
      ("toggle", "ToggleTaskHandler", "ToggleTaskArgs"),
      ("complete", "CompleteTasksHandler", "CompleteTasksArgs")]⟩,
    ⟨"AnalyzeVault",
     ["stats", "broken-links", "orphan-notes", "unlinked-mentions", "find-stubs", "find-outdated"],
     [("stats", "VaultStatsHandler", "VaultStatsArgs"),
      ("broken-links", "BrokenLinksHandler", "BrokenLinksArgs"),
      ("orphan-notes", "OrphanNotesHandler", "OrphanNotesArgs"),
      ("unlinked-mentions", "UnlinkedMentionsHandler", "UnlinkedMentionsArgs"),
      ("find-stubs", "FindStubsHandler", "FindStubsArgs"),
      ("find-outdated", "FindOutdatedHandler", "FindOutdatedArgs")]⟩,
    ⟨"ManageCanvas",
     ["list", "read", "create", "add-node", "add-edge"],
     [("list", "ListCanvasesHandler", "ListDirsArgs"),
      ("read", "ReadCanvasHandler", "ReadNoteArgs"),
      ("create", "CreateCanvasHandler", "CreateCanvasArgs"),
      ("add-node", "AddCanvasNodeHandler", "AddNodeArgs"),
      ("add-edge", "AddCanvasEdgeHandler", "ConnectNodesArgs")]⟩,
    ⟨"ManageMocs",
     ["discover", "generate", "update", "generate-index"],
     [("discover", "DiscoverMOCsHandler", "DiscoverMOCsArgs"),
      ("generate", "GenerateMOCHandler", "GenerateMOCArgs"),
      ("update", "UpdateMOCHandler", "UpdateMOCArgs"),
      ("generate-index", "GenerateIndexHandler", "GenerateIndexArgs")]⟩,
    ⟨"ReadBatch",
     ["read", "get-section", "get-headings", "get-summary"],
     [("read", "ReadNotesHandler", "ReadNotesArgs"),
      ("get-section", "GetSectionHandler", "GetSectionArgs"),
      ("get-headings", "GetHeadingsHandler", "GetHeadingsArgs"),
      ("get-summary", "GetNoteSummaryHandler", "GetNoteSummaryArgs")]⟩,
    ⟨"ManageLinks",
     ["backlinks", "forward-links", "suggest"],
     [("backlinks", "BacklinksHandler", "GetBacklinksArgs"),
      ("forward-links", "ForwardLinksHandler", "ForwardLinksArgs"),
      ("suggest", "SuggestLinksHandler", "SuggestLinksArgs")]⟩,
    ⟨"BulkOperations",
     ["tag", "move", "set-frontmatter"],
     [("tag", "BulkTagHandler", "BulkTagArgs"),
      ("move", "BulkMoveHandler", "BulkMoveArgs"),
      ("set-frontmatter", "BulkSetFrontmatterHandler", "BulkSetFrontmatterArgs")]⟩,
    ⟨"ManageTemplates",
     ["list", "get", "apply"],
     [("list", "ListTemplatesHandler", "ListTemplatesArgs"),
      ("get", "GetTemplateHandler", "GetTemplateArgs"),
      ("apply", "ApplyTemplateHandler", "ApplyTemplateArgs")]⟩,
    ⟨"ManageVaults",
     ["list", "switch"],
     [("list", "ListVaultsHandler", "ListVaultsArgs"),
      ("switch", "SwitchVaultHandler", "SwitchVaultArgs")]⟩ ]

/-- The whole generated artifact for a catalog (`gen_multiplex.py` lines
193-247). -/
def generate (structs : List (String × List FieldInfo)) : String :=
  generateFor groups structs

/-- The lines the generator prints.  The only executed `print` is the success
message at line 249; the warning prints at lines 200-201 and 208-209 are
comments (`# print(...)` / `pass`), so the printed output is the same for
every input. -/
def mainPrints : List String := ["Generated internal/vault/multiplex.go"]

/-- Go-level value of a composite struct instance, modelled as an assignment
of field names to (uninterpreted, string-valued) contents; `args "Action"` is
the discriminator field. -/
abbrev GoArgs : Type := String → String

/-- Semantics of the struct literal emitted in a case arm (`gen_multiplex.py`
lines 234-238): each field of the resolved original struct is copied from the
composite field of the same name; unlisted fields and unresolved structs give
the zero value `""`. -/
def reconstruct (structs : List (String × List FieldInfo)) (sName : String)
    (args : GoArgs) : GoArgs :=
  match lookupStruct structs sName with
  | some flds => fun n => if (flds.map (fun f => f.name)).contains n then args n else ""
  | none => fun _ => ""

/-- Semantics of the emitted dispatch routine (`gen_multiplex.py` lines
229-244): Go `switch args.Action` selects the first case whose literal equals
the discriminator, reconstructs that action's original struct and returns the
handler's result unchanged; the default arm returns the
`unknown action: <value>` error. -/
def dispatchSem {α : Type} (structs : List (String × List FieldInfo))
    (mappings : List (String × String × String))
    (handle : String → GoArgs → α) (args : GoArgs) : Except String α :=
  match mappings.find? (fun m => m.1 == args "Action") with
  | some m => .ok (handle m.2.1 (reconstruct structs m.2.2 args))
  | none => .error ("unknown action: " ++ args "Action")

/-- Construction of an original schema instance directly from given field
values (the specification's "constructing that schema directly from the same
field values"): fields of the schema take their given values, everything else
is zero. -/
def directConstruct (flds : List FieldInfo) (vals : String → String) : GoArgs :=
  fun n => if (flds.map (fun f => f.name)).contains n then vals n else ""

/-- Python regex word character `\w` (ASCII range, which is all the emitted
text uses). -/
def isWordChar (c : Char) : Bool := c.isAlphanum || c == '_'

/-- Python regex whitespace `\s` (ASCII range). -/
def isPySpace (c : Char) : Bool :=
  c == ' ' || c == '\t' || c == '\n' || c == '\x0d' || c == '\x0b' || c == '\x0c'

/-- Match attempt for `patch_script.py` line 7,
`re.sub(r'type (\w+)Args struct', r'type \1MultiplexArgs struct', text)`:
a match needs the literal `type `, then a maximal word-character run that
ends in `Args` (with at least one character before it, the greedy `\w+`
group), then the literal ` struct`. -/
def sub1MatchAt (s : List Char) : Option (List Char × List Char) :=
  if ("type ".data).isPrefixOf s then
    let rest := s.drop 5
    let r := rest.takeWhile isWordChar
    if 5 ≤ r.length ∧ ("Args".data).isSuffixOf r ∧
        (" struct".data).isPrefixOf (rest.drop r.length) then
      some ("type ".data ++ r.take (r.length - 4) ++ "MultiplexArgs struct".data,
        rest.drop (r.length + 7))
    else none
  else none

/-- The start indices `k` at which `Args` occurs inside the word run `r` with
at least one character before it (candidates for the end of the greedy `\w+`
group of `patch_script.py` line 8). -/
def argsSplits (r : List Char) : List Nat :=
  (List.range r.length).filter
    (fun k => decide (1 ≤ k) && ((r.drop k).take 4 == "Args".data))

/-- Match attempt for `patch_script.py` line 8,
`re.sub(r'(args )(\w+)Args', r'\1\2MultiplexArgs', text)`: after the literal
`args `, the greedy `\w+` group extends to the last `Args` occurrence inside
the maximal word-character run. -/
def sub2MatchAt (s : List Char) : Option (List Char × List Char) :=
  if ("args ".data).isPrefixOf s then
    let rest := s.drop 5
    let r := rest.takeWhile isWordChar
    match (argsSplits r).getLast? with
    | some k =>
      some ("args ".data ++ r.take k ++ "MultiplexArgs".data,
        rest.drop (k + 4))
    | none => none
  else none

/-- The (purely literal) pattern of `patch_script.py` lines 14-15, the
duplicate-`Action` field line the corrector expects. -/
def bulkFixPat : String :=
  "Action string `json:\"action,omitempty\" jsonschema:\"Action: " ++ squote ++
    "add" ++ squote ++ " (default), " ++ squote ++ "remove" ++ squote ++ "\"`"

/-- The replacement of `patch_script.py` line 15. -/
def bulkFixRepl : String :=
  "TagAction string `json:\"tag_action,omitempty\" jsonschema:\"Tag Action: " ++
    squote ++ "add" ++ squote ++ " (default), " ++ squote ++ "remove" ++
    squote ++ "\"`"

/-- Match attempt for `patch_script.py` line 19,
`re.sub(r'Action: args\.Action,\n(\s+DryRun)', r'Action: args.TagAction,\n\1', text)`:
the literal reconstruction line, then a nonempty whitespace run, then the
literal `DryRun` (both kept by the backreference). -/
def sub4MatchAt (s : List Char) : Option (List Char × List Char) :=
  if ("Action: args.Action,\n".data).isPrefixOf s then
    let rest := s.drop 21
    let w := rest.takeWhile isPySpace
    if w ≠ [] ∧ ("DryRun".data).isPrefixOf (rest.drop w.length) then
      some ("Action: args.TagAction,\n".data ++ w ++ "DryRun".data,
        rest.drop (w.length + 6))
    else none
  else none

/-- The import line removed by `patch_script.py` line 22 (note the
four-space indentation in the pattern). -/
def importPat : String := "\n    \"encoding/json\"\n"

/-- The Collision Corrector (`patch_script.py`): the five substitutions of
lines 7, 8, 15, 19 and 22, applied in order. -/
def pyCorrect (s : String) : String :=
  runSub (litMatch importPat.data "".data)
    (runSub sub4MatchAt
      (runSub (litMatch bulkFixPat.data bulkFixRepl.data)
        (runSub sub2MatchAt
          (runSub sub1MatchAt s))))

/-- Whether the matcher `m` fires at some position of `s`. -/
def hasMatch (m : List Char → Option (List Char × List Char)) :
    List Char → Bool
  | [] => false
  | c :: r => (m (c :: r)).isSome || hasMatch m r

/-- Whether `pat` occurs as a contiguous substring (at any position). -/
def containsSubL (pat : List Char) : List Char → Bool
  | [] => pat.isEmpty
  | c :: r => pat.isPrefixOf (c :: r) || containsSubL pat r

/-- Python `pat in s` substring test. -/
def containsSub (s pat : String) : Bool := containsSubL pat.data s.data

/-- Python `str.strip()` (`gen_multiplex.py` lines 155, 158). -/
def pyStrip (s : String) : String :=
  ⟨((s.data.dropWhile isPySpace).reverse.dropWhile isPySpace).reverse⟩

/-- Splitting at every newline, keeping empty pieces: Python
`body.split("\n")` (`gen_multiplex.py` line 157). -/
def splitOnNl : List Char → List (List Char)
  | [] => [[]]
  | c :: r =>
    match splitOnNl r with
    | [] => [[]]
    | h :: t => if c == '\n' then [] :: h :: t else (c :: h) :: t

/-- Accumulator for `pyWords`: whitespace-delimited words, empties
dropped. -/
def pyWordsAux : List Char → List Char → List (List Char)
  | acc, [] => if acc.isEmpty then [] else [acc.reverse]
  | acc, c :: r =>
    if isPySpace c then
      if acc.isEmpty then pyWordsAux [] r else acc.reverse :: pyWordsAux [] r
    else pyWordsAux (c :: acc) r

/-- Python `str.split()` with no separator (`gen_multiplex.py` line 161). -/
def pyWords (s : String) : List String :=
  (pyWordsAux [] s.data).map (fun w => String.mk w)

/-- Semantics of `re.search(key ++ '"([^"]+)"', line)`: scan start positions
left to right; a match needs the literal key, then a nonempty run of
non-quote characters, then a closing quote (`gen_multiplex.py` lines
168, 171). -/
def searchTagL (key : List Char) : List Char → Option (List Char)
  | [] => none
  | c :: r =>
    if key.isPrefixOf (c :: r) then
      let rest := (c :: r).drop key.length
      let run := rest.takeWhile (fun ch => ch != '"')
      if run ≠ [] ∧ run.length < rest.length then some run
      else searchTagL key r
    else searchTagL key r

/-- Tag extraction (`gen_multiplex.py` lines 167-172): guarded by a substring
test, then the regex search; absent or failed matches leave `""`. -/
def extractTag (guard key line : String) : String :=
  if containsSub line guard then
    ((searchTagL key.data line.data).map (fun l => String.mk l)).getD ""
  else ""

/-- One line of a struct body (`gen_multiplex.py` lines 157-179): strip,
skip empty and `//` comment lines, require at least two whitespace-separated
tokens (name and type), extract the `json` and `jsonschema` tags. -/
def parseFieldLine (raw : String) : Option FieldInfo :=
  let line := pyStrip raw
  if line == "" || ("//".data).isPrefixOf line.data then none
  else
    match pyWords line with
    | p0 :: p1 :: _ =>
      some ⟨p0, p1, extractTag "json:" "json:\"" line,
        extractTag "jsonschema:" "jsonschema:\"" line⟩
    | _ => none

/-- All parsed fields of one struct body, in order; lines that do not parse
are skipped silently. -/
def parseBody (body : String) : List FieldInfo :=
  ((splitOnNl (pyStrip body).data).map (fun l => String.mk l)).foldl
    (fun acc l =>
      match parseFieldLine l with
      | some f => acc ++ [f]
      | none => acc) []

/-- Match attempt for the declaration regex
`type (\w+) struct \{([^}]+)\}` (`gen_multiplex.py` line 152): literal
`type `, a nonempty word run, literal ` struct {`, a nonempty run of
non-`}` characters, closing `}`.  A declaration not of this shape simply
does not match. -/
def matchStructAt (s : List Char) : Option (String × String × List Char) :=
  if ("type ".data).isPrefixOf s then
    let rest := s.drop 5
    let w := rest.takeWhile isWordChar
    if w ≠ [] ∧ (" struct \x7b".data).isPrefixOf (rest.drop w.length) then
      let rest2 := (rest.drop w.length).drop 9
      let b := rest2.takeWhile (fun ch => ch != Char.ofNat 125)
      if b ≠ [] ∧ b.length < rest2.length then
        some (⟨w⟩, ⟨b⟩, rest2.drop (b.length + 1))
      else none
    else none
  else none

/-- `re.finditer` over the declaration regex: leftmost, non-overlapping
matches, scanning left to right (fuel-driven). -/
def findStructsF : Nat → List Char → List (String × String)
  | 0, _ => []
  | _ + 1, [] => []
  | n + 1, c :: r =>
    match matchStructAt (c :: r) with
    | some (nm, bd, after) => (nm, bd) :: findStructsF n after
    | none => findStructsF n r

/-- Python dict entry `structs[name] = fields` (`gen_multiplex.py` line 180):
a repeated name overwrites the value in place, a new name appends. -/
def insertStruct (acc : List (String × List FieldInfo))
    (kv : String × List FieldInfo) : List (String × List FieldInfo) :=
  if acc.any (fun p => p.1 == kv.1) then
    acc.map (fun p => if p.1 == kv.1 then kv else p)
  else acc ++ [kv]

/-- The whole catalog parser (`gen_multiplex.py` lines 150-180). -/
def parseStructs (content : String) : List (String × List FieldInfo) :=
  (findStructsF content.data.length content.data).foldl
    (fun acc nb => insertStruct acc (nb.1, parseBody nb.2)) []

/-- The real `BulkOperations` group (entry 12 of the `groups` table). -/
def bulkGroup : GroupEntry :=
  ⟨"BulkOperations",
   ["tag", "move", "set-frontmatter"],
   [("tag", "BulkTagHandler", "BulkTagArgs"),
    ("move", "BulkMoveHandler", "BulkMoveArgs"),
    ("set-frontmatter", "BulkSetFrontmatterHandler", "BulkSetFrontmatterArgs")]⟩

/-- A catalog in which `BulkTagArgs` has a field named `Action` (colliding
with the group's discriminator field name) that is not immediately followed
by a `DryRun` field. -/
def bulkCexStructs : List (String × List FieldInfo) :=
  [("BulkTagArgs",
    [⟨"Action", "string", "action,omitempty", "Tag action"⟩,
     ⟨"Path", "string", "path", "Target path"⟩])]

/-- The generated unit (composite struct plus dispatch routine) of the
`BulkOperations` group over that catalog. -/
def bulkUnit : String :=
  emitStruct bulkCexStructs bulkGroup ++ emitHandler bulkCexStructs bulkGroup

/-- A catalog text whose first declaration cannot be parsed into a field
list: `type Broken struct \x7b\x7d` has an empty body, which the declaration
regex rejects; a well-formed declaration follows. -/
def typesContentCex : String :=
  "type Broken struct \x7b\x7d\n\ntype Good struct \x7b\n\tPath string `json:\"path\"`\n\x7d\n"

/-- Modelled from the spec: the schema catalog `internal/vault/types.go` is
not under `src/`.  Per §3 of the specification a field's serialization key
"may carry an 'optional' marker": either the tag contains no `,omitempty`
marker at all, or it is a key followed by one final `,omitempty` marker, the
marker occurring exactly once in the tag. -/
def WellFormedKey (j : String) : Prop :=
  countOcc ompStr.data j.data = 0 ∨
    ∃ k : String, j = k ++ ompStr ∧ countOcc ompStr.data j.data = 1

/-! ### Helper lemmas -/

theorem strDataAppend (a b : String) : (a ++ b).data = a.data ++ b.data := rfl

theorem strOfDataEq (a : String) : String.mk a.data = a := rfl

theorem isPrefixOf_iff : ∀ (l₁ l₂ : List Char), l₁.isPrefixOf l₂ = true ↔ l₁ <+: l₂ := by
  intro l₁
  induction l₁ with
  | nil =>
    intro l₂
    simp [List.isPrefixOf]
  | cons a as ih =>
    intro l₂
    cases l₂ with
    | nil => simp [List.isPrefixOf]
    | cons b bs =>
      simp [List.isPrefixOf, ih bs, List.cons_prefix_cons, Bool.and_eq_true, beq_iff_eq]

theorem isPrefixOf_append_mono {p x : List Char} (y : List Char)
    (h : p.isPrefixOf x = true) : p.isPrefixOf (x ++ y) = true := by
  rw [isPrefixOf_iff] at h ⊢
  obtain ⟨t, rfl⟩ := h
  exact ⟨t ++ y, by simp⟩

theorem countOcc_append_self (pat : List Char) (hp : pat ≠ []) :
    ∀ k : List Char, countOcc pat k + 1 ≤ countOcc pat (k ++ pat) := by
  intro k
  induction k with
  | nil =>
    cases pat with
    | nil => exact absurd rfl hp
    | cons p pr =>
      have hpre : (p :: pr).isPrefixOf (p :: pr) = true :=
        (isPrefixOf_iff _ _).mpr ⟨[], by simp⟩
      simp [countOcc, hpre]
  | cons c k' ih =>
    have mono : pat.isPrefixOf (c :: k') = true →
        pat.isPrefixOf (c :: (k' ++ pat)) = true := by
      intro h
      simpa using isPrefixOf_append_mono (x := c :: k') pat h
    show (if pat.isPrefixOf (c :: k') then 1 else 0) + countOcc pat k' + 1 ≤
      (if pat.isPrefixOf (c :: (k' ++ pat)) then 1 else 0) + countOcc pat (k' ++ pat)
    cases h1 : pat.isPrefixOf (c :: k') with
    | true => rw [mono h1]; simp; omega
    | false => cases h2 : pat.isPrefixOf (c :: (k' ++ pat)) <;> simp <;> omega

theorem countOcc_zero_of_append (k pat : List Char) (hp : pat ≠ [])
    (h : countOcc pat (k ++ pat) = 1) : countOcc pat k = 0 := by
  have := countOcc_append_self pat hp k
  omega

theorem scanSubF_id_of_no_occ (pat repl : List Char) :
    ∀ (s : List Char) (n : Nat), countOcc pat s = 0 →
      scanSubF (litMatch pat repl) n s = s := by
  intro s
  induction s with
  | nil => intro n _; cases n <;> rfl
  | cons c r ih =>
    intro n h
    have h1 : pat.isPrefixOf (c :: r) = false := by
      cases hx : pat.isPrefixOf (c :: r) with
      | false => rfl
      | true => simp [countOcc, hx] at h
    have h2 : countOcc pat r = 0 := by simpa [countOcc, h1] using h
    cases n with
    | zero => rfl
    | succ q => simp [scanSubF, litMatch, h1, ih q h2]

theorem scanSubF_strip_tail (pat : List Char) (hp : pat ≠ []) :
    ∀ (k : List Char) (n : Nat), (k ++ pat).length ≤ n →
      countOcc pat (k ++ pat) = 1 → scanSubF (litMatch pat []) n (k ++ pat) = k := by
  intro k
  induction k with
  | nil =>
    intro n hn h1
    cases pat with
    | nil => exact absurd rfl hp
    | cons p pr =>
      cases n with
      | zero => simp at hn
      | succ q =>
        have hpre : (p :: pr).isPrefixOf (p :: pr) = true :=
          (isPrefixOf_iff _ _).mpr ⟨[], by simp⟩
        show scanSubF (litMatch (p :: pr) []) (q + 1) (p :: pr) = []
        simp only [scanSubF, litMatch, hpre]
        simp [List.drop_length]
        cases q <;> rfl
  | cons c k' ih =>
    intro n hn h1
    have hpre : pat.isPrefixOf (c :: (k' ++ pat)) = false := by
      cases hx : pat.isPrefixOf (c :: (k' ++ pat)) with
      | false => rfl
      | true =>
        have hub := countOcc_append_self pat hp k'
        have : countOcc pat (c :: (k' ++ pat)) =
            1 + countOcc pat (k' ++ pat) := by simp [countOcc, hx]
        rw [show (c :: k') ++ pat = c :: (k' ++ pat) from rfl, this] at h1
        omega
    cases n with
    | zero =>
      exfalso
      have : 0 < ((c :: k') ++ pat).length := by simp
      omega
    | succ q =>
      have h2 : countOcc pat (k' ++ pat) = 1 := by
        have : countOcc pat (c :: (k' ++ pat)) =
            countOcc pat (k' ++ pat) := by simp [countOcc, hpre]
        rw [show (c :: k') ++ pat = c :: (k' ++ pat) from rfl, this] at h1
        exact h1
      have hq : (k' ++ pat).length ≤ q := by
        simp only [List.cons_append, List.length_cons] at hn
        simp only [List.length_append] at hn ⊢
        omega
      show scanSubF (litMatch pat []) (q + 1) (c :: (k' ++ pat)) = c :: k'
      simp only [scanSubF, litMatch, hpre]
      simp
      exact ih q hq h2

theorem scanSubF_id_of_no_match
    (m : List Char → Option (List Char × List Char)) :
    ∀ (s : List Char) (n : Nat), hasMatch m s = false → scanSubF m n s = s := by
  intro s
  induction s with
  | nil => intro n _; cases n <;> rfl
  | cons c r ih =>
    intro n h
    have h1 : m (c :: r) = none := by
      cases hx : m (c :: r) with
      | none => rfl
      | some v => simp [hasMatch, hx] at h
    have h2 : hasMatch m r = false := by simpa [hasMatch, h1] using h
    cases n with
    | zero => rfl
    | succ q => simp [scanSubF, h1, ih q h2]

theorem runSub_id_of_no_match
    (m : List Char → Option (List Char × List Char)) (s : String)
    (h : hasMatch m s.data = false) : runSub m s = s := by
  unfold runSub
  rw [scanSubF_id_of_no_match m s.data _ h]

theorem uniqueFieldsAux_eq (structs : List (String × List FieldInfo)) :
    ∀ (ms : List (String × String × String)) (acc : List FieldInfo),
      uniqueFieldsAux structs acc ms = (allFields structs ms).foldl insertField acc := by
  intro ms
  induction ms with
  | nil => intro acc; rfl
  | cons m rest ih =>
    intro acc
    show uniqueFieldsAux structs acc (m :: rest) = _
    unfold uniqueFieldsAux
    cases hs : lookupStruct structs m.2.2 with
    | none => simp [allFields, hs, ih, List.foldl_append]
    | some flds =>
      show uniqueFieldsAux structs (flds.foldl insertField acc) rest = _
      rw [ih (flds.foldl insertField acc)]
      simp [allFields, hs, List.foldl_append]

theorem insertField_names_nodup (acc : List FieldInfo) (f : FieldInfo)
    (h : (acc.map (fun g => g.name)).Nodup) :
    ((insertField acc f).map (fun g => g.name)).Nodup := by
  unfold insertField
  cases hx : acc.any (fun g => g.name == f.name) with
  | true => exact h
  | false =>
    have hnm : f.name ∉ acc.map (fun g => g.name) := by
      intro hmem
      rw [List.mem_map] at hmem
      obtain ⟨g, hg, hgname⟩ := hmem
      have : acc.any (fun g => g.name == f.name) = true :=
        List.any_eq_true.mpr ⟨g, hg, by simp [hgname]⟩
      rw [this] at hx
      exact Bool.noConfusion hx
    simp [List.nodup_append, h, hnm]

theorem foldl_insertField_names_nodup :
    ∀ (fs acc : List FieldInfo), (acc.map (fun g => g.name)).Nodup →
      (((fs.foldl insertField acc)).map (fun g => g.name)).Nodup := by
  intro fs
  induction fs with
  | nil => intro acc h; exact h
  | cons f fs' ih =>
    intro acc h
    rw [List.foldl_cons]
    exact ih _ (insertField_names_nodup acc f h)

theorem uniqueFields_names_nodup (structs : List (String × List FieldInfo))
    (ms : List (String × String × String)) :
    ((uniqueFields structs ms).map (fun g => g.name)).Nodup := by
  unfold uniqueFields
  rw [uniqueFieldsAux_eq]
  exact foldl_insertField_names_nodup _ [] (by simp)

theorem find?_insertField (acc : List FieldInfo) (f : FieldInfo) (n : String) :
    (insertField acc f).find? (fun g => g.name == n) =
      (acc.find? (fun g => g.name == n)).or ([f].find? (fun g => g.name == n)) := by
  unfold insertField
  cases hacc : acc.any (fun g => g.name == f.name) with
  | false => simp [List.find?_append]
  | true =>
    cases hpf : (f.name == n) with
    | false => simp [List.find?, hpf, Option.or_none]
    | true =>
      have hfn : f.name = n := by simpa using hpf
      obtain ⟨g, hg, hb⟩ := List.any_eq_true.mp hacc
      have hsome : (acc.find? (fun g => g.name == n)).isSome := by
        rw [List.find?_isSome]
        refine ⟨g, hg, ?_⟩
        have : g.name = f.name := by simpa using hb
        simp [this, hfn]
      cases hv : acc.find? (fun g => g.name == n) with
      | none => rw [hv] at hsome; exact Bool.noConfusion hsome
      | some v => simp [hv]

theorem find?_foldl_insertField (n : String) :
    ∀ (fs acc : List FieldInfo),
      (fs.foldl insertField acc).find? (fun g => g.name == n) =
        (acc.find? (fun g => g.name == n)).or (fs.find? (fun g => g.name == n)) := by
  intro fs
  induction fs with
  | nil => intro acc; simp [Option.or_none]
  | cons f fs' ih =>
    intro acc
    rw [List.foldl_cons, ih, find?_insertField]
    rw [show (f :: fs') = [f] ++ fs' from rfl, List.find?_append, Option.or_assoc]

theorem uniqueFields_find?_eq_first (structs : List (String × List FieldInfo))
    (ms : List (String × String × String)) (n : String) :
    (uniqueFields structs ms).find? (fun g => g.name == n) =
      (allFields structs ms).find? (fun g => g.name == n) := by
  unfold uniqueFields
  rw [uniqueFieldsAux_eq, find?_foldl_insertField]
  simp [Option.none_or]

theorem generateFor_keeps_init (structs : List (String × List FieldInfo)) :
    ∀ (table : List GroupEntry) (init : String),
      init.data <+:
        (table.foldl (fun out g => out ++ emitStruct structs g ++ emitHandler structs g)
          init).data := by
  intro table
  induction table with
  | nil => intro init; exact ⟨[], by simp⟩
  | cons g gs ih =>
    intro init
    rw [List.foldl_cons]
    refine List.IsPrefix.trans ?_ (ih (init ++ emitStruct structs g ++ emitHandler structs g))
    exact ⟨(emitStruct structs g).data ++ (emitHandler structs g).data,
      by simp [strDataAppend, List.append_assoc]⟩

theorem contains_names_iff (flds : List FieldInfo) (n : String) :
    ((flds.map (fun f => f.name)).contains n = true) ↔ ∃ f ∈ flds, f.name = n := by
  rw [List.contains_eq_any_beq, List.any_eq_true]
  constructor
  · rintro ⟨x, hx, hb⟩
    obtain ⟨f, hf, hfx⟩ := List.mem_map.mp hx
    refine ⟨f, hf, ?_⟩
    rw [hfx]
    exact (by simpa using hb : n = x).symm
  · rintro ⟨f, hf, hfn⟩
    exact ⟨f.name, List.mem_map.mpr ⟨f, hf, rfl⟩, by simp [hfn]⟩

/-! ### Claim theorems -/

/-- **C1.** For every catalog, mapping table and action `A` selected by the
dispatch switch whose schema name resolves, invoking the generated dispatch
routine with discriminator `A` and all of the schema's original fields set on
the composite value reconstructs an instance equal field-by-field to
constructing the schema directly from the same field values
(`directConstruct`), and the handler's result is returned unchanged (the
result is exactly `.ok` of the handler applied to that instance, with no
further transformation). -/
theorem c1_dispatch_reconstructs_exact {α : Type}
    (structs : List (String × List FieldInfo))
    (mappings : List (String × String × String))
    (handle : String → GoArgs → α) (args : GoArgs) (vals : String → String)
    (A h s : String) (flds : List FieldInfo)
    (hfind : mappings.find? (fun m => m.1 == args "Action") = some (A, h, s))
    (hres : lookupStruct structs s = some flds)
    (hset : ∀ f ∈ flds, args f.name = vals f.name) :
    dispatchSem structs mappings handle args =
      Except.ok (handle h (directConstruct flds vals)) := by
  unfold dispatchSem
  rw [hfind]
  show Except.ok (handle h (reconstruct structs s args)) = _
  have : reconstruct structs s args = directConstruct flds vals := by
    unfold reconstruct directConstruct
    rw [hres]
    funext n
    show (if (flds.map (fun f => f.name)).contains n = true then args n else "") =
      (if (flds.map (fun f => f.name)).contains n = true then vals n else "")
    cases hmem : (flds.map (fun f => f.name)).contains n with
    | false => rfl
    | true =>
      obtain ⟨f, hf, hfn⟩ := (contains_names_iff flds n).mp hmem
      have hv : args n = vals n := by
        rw [← hfn]; exact hset f hf
      simp [hv]
  rw [this]

/-- Witness for C1: the specification's own example scenario, the `move`
action forwarding path and destination untouched. -/
theorem c1_witness :
    dispatchSem
      [("MoveArgs", [⟨"Path", "string", "path", ""⟩,
        ⟨"Destination", "string", "destination", ""⟩])]
      [("move", "MoveNoteHandler", "MoveArgs")]
      (fun _ inst => inst "Destination")
      (fun n => if n == "Action" then "move" else
        if n == "Path" then "a.md" else
        if n == "Destination" then "b.md" else "") =
      Except.ok "b.md" := by
  have := c1_dispatch_reconstructs_exact
    [("MoveArgs", [⟨"Path", "string", "path", ""⟩,
      ⟨"Destination", "string", "destination", ""⟩])]
    [("move", "MoveNoteHandler", "MoveArgs")]
    (fun _ inst => inst "Destination")
    (fun n => if n == "Action" then "move" else
      if n == "Path" then "a.md" else
      if n == "Destination" then "b.md" else "")
    (fun n => if n == "Path" then "a.md" else
      if n == "Destination" then "b.md" else "")
    "move" "MoveNoteHandler" "MoveArgs"
    [⟨"Path", "string", "path", ""⟩,
      ⟨"Destination", "string", "destination", ""⟩]
    (by decide) (by decide) (by decide)
  simpa using this

/-- **C2.** Dispatch on a discriminator value matching none of the declared
actions returns the `unknown action` error carrying the offending value
verbatim (as a suffix of the message), invokes no handler (the result is the
same for every handler table), and this is the only input-dependent runtime
failure: any error the dispatch routine returns arises exactly from an
unmatched discriminator and has exactly this message. -/
theorem c2_unknown_action_error {α : Type}
    (structs : List (String × List FieldInfo))
    (mappings : List (String × String × String))
    (handle : String → GoArgs → α) (args : GoArgs)
    (hnone : mappings.find? (fun m => m.1 == args "Action") = none) :
    dispatchSem structs mappings handle args =
        Except.error ("unknown action: " ++ args "Action") ∧
      (args "Action").data <:+ ("unknown action: " ++ args "Action").data ∧
      (∀ handle' : String → GoArgs → α,
        dispatchSem structs mappings handle' args =
          Except.error ("unknown action: " ++ args "Action")) ∧
      ∀ (args' : GoArgs) (e : String),
        dispatchSem structs mappings handle args' = Except.error e →
          mappings.find? (fun m => m.1 == args' "Action") = none ∧
            e = "unknown action: " ++ args' "Action" := by
  refine ⟨?_, ?_, ?_, ?_⟩
  · unfold dispatchSem; rw [hnone]
  · exact ⟨"unknown action: ".data, (strDataAppend _ _).symm⟩
  · intro handle'; unfold dispatchSem; rw [hnone]
  · intro args' e hdisp
    unfold dispatchSem at hdisp
    cases hfind : mappings.find? (fun m => m.1 == args' "Action") with
    | some m => rw [hfind] at hdisp; exact absurd hdisp (by simp)
    | none =>
      rw [hfind] at hdisp
      refine ⟨rfl, ?_⟩
      have := Except.error.inj hdisp
      exact this.symm

/-- Witness for C2: the real `ManageVaults` mapping table and the
specification's example value `frobnicate`. -/
theorem c2_witness :
    dispatchSem (α := String) []
      [("list", "ListVaultsHandler", "ListVaultsArgs"),
       ("switch", "SwitchVaultHandler", "SwitchVaultArgs")]
      (fun _ _ => "") (fun _ => "frobnicate") =
      Except.error "unknown action: frobnicate" := by
  have := (c2_unknown_action_error (α := String) []
    [("list", "ListVaultsHandler", "ListVaultsArgs"),
     ("switch", "SwitchVaultHandler", "SwitchVaultArgs")]
    (fun _ _ => "") (fun _ => "frobnicate") (by decide)).1
  rw [this]
  rfl

/-- **C6.** An action whose schema name does not resolve is recoverable, not
fatal: it contributes no fields to the unified composite (removing it from
the mapping list leaves unification unchanged), it still receives a dispatch
case arm whose struct literal is empty, and dispatching on it succeeds with a
zero-valued instance instead of failing. -/
theorem c6_unresolved_schema_recoverable
    (structs : List (String × List FieldInfo)) (A h s : String)
    (hs : lookupStruct structs s = none) :
    (∀ (acc : List FieldInfo) (ms₁ ms₂ : List (String × String × String)),
        uniqueFieldsAux structs acc (ms₁ ++ (A, h, s) :: ms₂) =
          uniqueFieldsAux structs acc (ms₁ ++ ms₂)) ∧
      emitCase structs (A, h, s) =
        "\tcase \"" ++ A ++ "\":\n" ++ "\t\tspecificArgs := " ++ s ++
          "\x7b\n" ++ "" ++ "\t\t\x7d\n" ++
          "\t\treturn v." ++ h ++ "(ctx, req, specificArgs)\n" ∧
      ∀ {α : Type} (mappings : List (String × String × String))
        (handle : String → GoArgs → α) (args : GoArgs),
        mappings.find? (fun m => m.1 == args "Action") = some (A, h, s) →
          dispatchSem structs mappings handle args =
            Except.ok (handle h (fun _ => "")) := by
  refine ⟨?_, ?_, ?_⟩
  · intro acc ms₁ ms₂
    rw [uniqueFieldsAux_eq, uniqueFieldsAux_eq]
    congr 1
    simp [allFields, hs]
  · simp only [emitCase, hs]
  · intro α mappings handle args hfind
    unfold dispatchSem
    rw [hfind]
    show Except.ok (handle h (reconstruct structs s args)) = _
    unfold reconstruct
    rw [hs]

/-- Witness for C6 at the real `ManageVaults` `list` mapping with an empty
catalog. -/
theorem c6_witness :
    dispatchSem (α := String) []
      [("list", "ListVaultsHandler", "ListVaultsArgs")]
      (fun hh _ => hh) (fun _ => "list") =
      Except.ok "ListVaultsHandler" := by
  have := (c6_unresolved_schema_recoverable [] "list" "ListVaultsHandler"
    "ListVaultsArgs" (by decide)).2.2
    [("list", "ListVaultsHandler", "ListVaultsArgs")]
    (fun hh _ => hh) (fun _ => "list") (by decide)
  simpa using this

/-- **C10.** For every group of the embedded specification table, the keys of
its mappings table coincide, in order, with its declared actions list, and no
action list has duplicates; consequently unification visits schemas in
declared action order and the emitted dispatch routine (whose case arms are
mapped over the mappings table) has exactly one case arm per declared action,
in declared order, even though both loops iterate the mappings table. -/
theorem c10_mappings_keys_align :
    groups.map (fun g => g.mappings.map (fun m => m.1)) =
        groups.map (fun g => g.actions) ∧
      groups.all (fun g => decide g.actions.Nodup) = true := by
  constructor
  · rfl
  · decide

/-- **C5 counterexample.** With the real `ManageNotes` group (entry 0 of the
table) and a catalog in which `ReadNoteArgs` declares `Title string` while
`WriteNoteArgs` declares `Title int`, unification silently keeps the
first-seen type, and the program's printed output is the unconditional
success line, which does not mention the conflicting field: no warning is
reported (the conflict branch of the loop is `pass`, `gen_multiplex.py`
lines 207-209).  This falsifies the claim that the conflict is "surfaced as
a reported warning rather than silently resolved". -/
theorem c5_counterexample :
    (groups.get? 0).map (fun g => uniqueFields
        [("ReadNoteArgs", [⟨"Title", "string", "title", ""⟩]),
         ("WriteNoteArgs", [⟨"Title", "int", "title", ""⟩])] g.mappings) =
      some [⟨"Title", "string", "title", ""⟩] ∧
      mainPrints = ["Generated internal/vault/multiplex.go"] ∧
      mainPrints.all (fun l => !(containsSub l "Title")) = true := by
  refine ⟨by decide, rfl, by decide⟩

/-- **C5 (amended).** For every catalog and group mapping list, no two
entries of the unified composite field map share a name, and the entry found
for any name is exactly the first field of that name contributed in traversal
order: two same-named fields are unified once with the first-seen position
and the first-seen type kept, never overwritten.  The type conflict itself,
however, is silently ignored (no warning is reported) — see the
counterexample. -/
theorem c5_unified_names_unique_first_seen :
    ∀ (structs : List (String × List FieldInfo))
      (ms : List (String × String × String)),
      ((uniqueFields structs ms).map (fun g => g.name)).Nodup ∧
      ∀ n : String, (uniqueFields structs ms).find? (fun g => g.name == n) =
        (allFields structs ms).find? (fun g => g.name == n) :=
  fun structs ms => ⟨uniqueFields_names_nodup structs ms,
    fun n => uniqueFields_find?_eq_first structs ms n⟩

/-- **C7.** For every catalog and group, the emitted composite schema is the
comment and struct header, then the discriminator field first, then one line
per unified field, closed by the brace; the unified fields are exactly a
first-seen fold over all fields contributed in declaration order (first-seen
order); the discriminator line's description enumerates the declared actions
in order; and every unified field's line keeps the field's original type and
original description and carries a serialization key ending in the
omit-if-empty marker. -/
theorem c7_composite_schema_layout :
    ∀ (structs : List (String × List FieldInfo)) (g : GroupEntry),
      emitStruct structs g =
        "// " ++ g.name ++ "MultiplexArgs multiplexed args\n" ++
        "type " ++ g.name ++ "MultiplexArgs struct \x7b\n" ++
        emitDiscLine g.actions ++
        String.join (((allFields structs g.mappings).foldl insertField []).map
          emitFieldLine) ++
        "\x7d\n\n" ∧
      emitDiscLine g.actions =
        "\tAction string `json:\"action\" jsonschema:\"Action to perform: " ++
          String.intercalate ", "
            (g.actions.map (fun a => squote ++ a ++ squote)) ++
          "\"`\n" ∧
      ∀ f ∈ uniqueFields structs g.mappings, ∃ k : String,
        emitFieldLine f =
          "\t" ++ (if f.name == "Action" then "TagAction" else f.name) ++
            " " ++ f.type ++ " `json:\"" ++ (k ++ ompStr) ++
            "\" jsonschema:\"" ++ f.schema ++ "\"`\n" := by
  intro structs g
  refine ⟨?_, rfl, ?_⟩
  · unfold emitStruct uniqueFields
    rw [uniqueFieldsAux_eq]
  · intro f _
    cases hx : f.name == "Action" with
    | true => exact ⟨"tag_action", by simp [emitFieldLine, hx]⟩
    | false => exact ⟨pyReplace f.json ompStr "", by simp [emitFieldLine, hx, jsonTagOf]⟩

/-- Witness for C7 at a concrete catalog and group (the nested membership
hypothesis discharged at the field `Name` of `ListVaultsArgs`). -/
theorem c7_witness :
    ∃ k : String, emitFieldLine ⟨"Name", "string", "name", "The name"⟩ =
      "\t" ++ (if ("Name" : String) == "Action" then "TagAction" else "Name") ++
        " " ++ "string" ++ " `json:\"" ++ (k ++ ompStr) ++
        "\" jsonschema:\"" ++ "The name" ++ "\"`\n" :=
  (c7_composite_schema_layout
    [("ListVaultsArgs", [⟨"Name", "string", "name", "The name"⟩])]
    ⟨"ManageVaults", ["list", "switch"],
     [("list", "ListVaultsHandler", "ListVaultsArgs"),
      ("switch", "SwitchVaultHandler", "SwitchVaultArgs")]⟩).2.2
    ⟨"Name", "string", "name", "The name"⟩ (by decide)

/-- **C3 counterexample.** The Collision Corrector is not idempotent.  On the
unit `type AArgs struct`, one application gives `type AMultiplexArgs struct`
and a second gives `type AMultiplexMultiplexArgs struct`: the
`Args`→`MultiplexArgs` rename matches its own output (the greedy `\w+` group
absorbs the inserted `Multiplex`) and inserts a further `Multiplex` on every
application, so running the corrector on already-corrected output is not a
no-op. -/
theorem c3_counterexample :
    pyCorrect (pyCorrect "type AArgs struct") ≠ pyCorrect "type AArgs struct" := by
  decide

/-- **C3 (amended).** The corrector is idempotent exactly on units where none
of its five substitution patterns matches the once-corrected output: if no
pattern fires on `correct x` then `correct (correct x) = correct x`.  In
general it is not idempotent, because the two `Args`→`MultiplexArgs` renames
match their own output (see the counterexample); the duplicate-`Action` fix,
the `DryRun` dispatch rewrite and the import removal do not re-fire on their
own output. -/
theorem c3_corrector_idempotent_on_fixed :
    ∀ x : String,
      hasMatch sub1MatchAt (pyCorrect x).data = false →
      hasMatch sub2MatchAt (pyCorrect x).data = false →
      hasMatch (litMatch bulkFixPat.data bulkFixRepl.data) (pyCorrect x).data = false →
      hasMatch sub4MatchAt (pyCorrect x).data = false →
      hasMatch (litMatch importPat.data "".data) (pyCorrect x).data = false →
      pyCorrect (pyCorrect x) = pyCorrect x := by
  intro x h1 h2 h3 h4 h5
  show runSub (litMatch importPat.data "".data)
      (runSub sub4MatchAt
        (runSub (litMatch bulkFixPat.data bulkFixRepl.data)
          (runSub sub2MatchAt (runSub sub1MatchAt (pyCorrect x))))) = pyCorrect x
  rw [runSub_id_of_no_match _ _ h1, runSub_id_of_no_match _ _ h2,
    runSub_id_of_no_match _ _ h3, runSub_id_of_no_match _ _ h4,
    runSub_id_of_no_match _ _ h5]

/-- Witness for the amended C3 at `x = "v"`, where no pattern matches the
corrected output. -/
theorem c3_witness : pyCorrect (pyCorrect "v") = pyCorrect "v" :=
  c3_corrector_idempotent_on_fixed "v" (by decide) (by decide) (by decide)
    (by decide) (by decide)

set_option maxRecDepth 400000 in
/-- **C4 counterexample.** For the real `BulkOperations` group over
`bulkCexStructs`, even after the Collision Corrector runs, the dispatch
routine still reconstructs the collision parameter from the discriminator —
the corrected unit contains the line `Action: args.Action,` and never
references `args.TagAction` — because the corrector's rewrite only fires
where the collision line is immediately followed by a `DryRun` field.  This
falsifies the conjunct that the dispatch routine uses the renamed composite
field (not the discriminator) when reconstructing that parameter. -/
theorem c4_counterexample :
    groups.get? 12 = some bulkGroup ∧
      containsSub (pyCorrect bulkUnit) "Action: args.Action," = true ∧
      containsSub (pyCorrect bulkUnit) "Action: args.TagAction" = false := by
  refine ⟨by decide, by decide, by decide⟩

/-- **C4 (amended).** The struct emission gives every collision field (one
whose name equals the discriminator field name `Action`) the single renamed
identity `TagAction` with the distinct serialization key
`tag_action,omitempty` — the same renamed identity for every occurrence in
every group, since the rename is a fixed function of the field.  The emitted
dispatch routine, however, reconstructs every parameter from the composite
field carrying the parameter's original name — for a collision parameter
that is the discriminator itself — and the corrector rewrites such a
reconstruction site to the renamed field only when it is immediately
followed by a `DryRun` field. -/
theorem c4_rename_emission_and_dispatch :
    (∀ f : FieldInfo, f.name = "Action" →
        emitFieldLine f =
          "\t" ++ "TagAction" ++ " " ++ f.type ++ " `json:\"" ++
            ("tag_action" ++ ompStr) ++ "\" jsonschema:\"" ++ f.schema ++
            "\"`\n") ∧
      (∀ (structs : List (String × List FieldInfo))
        (m : String × String × String) (flds : List FieldInfo),
        lookupStruct structs m.2.2 = some flds →
        emitCase structs m =
          "\tcase \"" ++ m.1 ++ "\":\n" ++ "\t\tspecificArgs := " ++ m.2.2 ++
            "\x7b\n" ++
            String.join (flds.map (fun f => "\t\t\t" ++ f.name ++ ": args." ++
              f.name ++ ",\n")) ++
            "\t\t\x7d\n" ++ "\t\treturn v." ++ m.2.1 ++
            "(ctx, req, specificArgs)\n") ∧
      runSub sub4MatchAt "\t\t\tAction: args.Action,\n\t\t\tDryRun bool\n" =
        "\t\t\tAction: args.TagAction,\n\t\t\tDryRun bool\n" := by
  refine ⟨?_, ?_, by decide⟩
  · intro f hf
    simp [emitFieldLine, hf]
  · intro structs m flds h
    simp only [emitCase, h]

/-- Witness for the amended C4 at a concrete collision field. -/
theorem c4_witness :
    emitFieldLine ⟨"Action", "string", "action,omitempty", "Tag act"⟩ =
      "\t" ++ "TagAction" ++ " " ++ "string" ++ " `json:\"" ++
        ("tag_action" ++ ompStr) ++ "\" jsonschema:\"" ++ "Tag act" ++
        "\"`\n" :=
  c4_rename_emission_and_dispatch.1
    ⟨"Action", "string", "action,omitempty", "Tag act"⟩ rfl

theorem header_starts_package_vault : "package vault".data <+: fileHeader.data :=
  ⟨"\n\nimport (\n\t\"context\"\n\t\"fmt\"\n\n\t\"github.com/modelcontextprotocol/go-sdk/mcp\"\n)\n\n".data,
    by decide⟩

theorem generate_never_aborts (structs : List (String × List FieldInfo)) :
    "package vault".data <+: (generate structs).data :=
  List.IsPrefix.trans header_starts_package_vault
    (generateFor_keeps_init structs groups fileHeader)

/-- **C8 counterexample.** A malformed schema declaration is not fatal and
aborts nothing: it is silently absent from the parsed catalog (no error
value, no diagnostic), generation proceeds and still emits output beginning
with the fixed header, and the program's only printed line is the success
message, which does not identify the offending declaration.  This falsifies
the claim that such a declaration "is fatal and aborts the whole generation
run (with a diagnostic identifying the offending declaration)". -/
theorem c8_counterexample :
    parseStructs typesContentCex = [("Good", [⟨"Path", "string", "path", ""⟩])] ∧
      "package vault".data <+: (generate (parseStructs typesContentCex)).data ∧
      mainPrints.all (fun l => !(containsSub l "Broken")) = true := by
  refine ⟨by decide, generate_never_aborts _, by decide⟩

/-- **C8 (amended).** Generation never aborts: for every catalog text the run
produces output beginning with the fixed header (a declaration the regex
cannot parse is simply absent from the catalog), a stripped field line with
fewer than two whitespace-separated tokens parses to nothing — skipped
silently, with no recorded warning of any kind: the printed output is always
exactly the success line. -/
theorem c8_malformed_silently_skipped :
    (∀ content : String,
        "package vault".data <+: (generate (parseStructs content)).data) ∧
      (∀ raw : String, (pyWords (pyStrip raw)).length < 2 →
        parseFieldLine raw = none) ∧
      mainPrints = ["Generated internal/vault/multiplex.go"] := by
  refine ⟨?_, ?_, rfl⟩
  · intro content
    exact generate_never_aborts (parseStructs content)
  · intro raw h
    unfold parseFieldLine
    cases hc : (pyStrip raw == "" || ("//".data).isPrefixOf (pyStrip raw).data) with
    | true => simp [hc]
    | false =>
      simp only [hc, Bool.false_eq_true, if_false]
      cases hw : pyWords (pyStrip raw) with
      | nil => rfl
      | cons p0 tl =>
        cases tl with
        | nil => rfl
        | cons p1 rest =>
          rw [hw] at h
          simp at h
          omega

/-- Witness for the amended C8: the empty catalog text and a one-token field
line. -/
theorem c8_witness :
    ("package vault".data <+: (generate (parseStructs "")).data) ∧
      parseFieldLine "x" = none :=
  ⟨c8_malformed_silently_skipped.1 "",
    c8_malformed_silently_skipped.2.1 "x" (by decide)⟩

/-- **C9.** In every emitted composite struct the discriminator line's json
tag is exactly `action` with no omit-if-empty marker (the line is the fixed
text around the enumerated description), while every other emitted field
line's json tag ends with `,omitempty` occurring exactly once: for a
well-formed source key the removal pass leaves a key with no marker
occurrence, so the appended marker is the only one — a source tag that
already carried the marker does not get it duplicated. -/
theorem c9_json_tags (f : FieldInfo) (hwf : WellFormedKey f.json)
    (hna : f.name ≠ "Action") :
    (∀ actions : List String, ∃ d : String,
        emitDiscLine actions =
          "\tAction string `json:\"action\" jsonschema:\"" ++ d ++ "\"`\n") ∧
      ∃ k : String,
        emitFieldLine f =
          "\t" ++ f.name ++ " " ++ f.type ++ " `json:\"" ++ (k ++ ompStr) ++
            "\" jsonschema:\"" ++ f.schema ++ "\"`\n" ∧
          countOcc ompStr.data k.data = 0 := by
  constructor
  · intro actions
    refine ⟨"Action to perform: " ++
      String.intercalate ", " (actions.map (fun a => squote ++ a ++ squote)), ?_⟩
    apply String.ext
    have hsplit :
        ("\tAction string `json:\"action\" jsonschema:\"Action to perform: " : String).data =
          ("\tAction string `json:\"action\" jsonschema:\"" : String).data ++
          ("Action to perform: " : String).data := by decide
    simp [emitDiscLine, strDataAppend, hsplit, List.append_assoc]
  · have hbeq : (f.name == "Action") = false := by
      cases hx : f.name == "Action" with
      | false => rfl
      | true => exact absurd (by simpa using hx) hna
    refine ⟨pyReplace f.json ompStr "", ?_, ?_⟩
    · simp [emitFieldLine, hbeq, jsonTagOf]
    · cases hwf with
      | inl h0 =>
        have hdata : (pyReplace f.json ompStr "").data = f.json.data := by
          show scanSubF (litMatch ompStr.data []) f.json.data.length f.json.data =
            f.json.data
          exact scanSubF_id_of_no_occ ompStr.data [] f.json.data _ h0
        rw [hdata]
        exact h0
      | inr hex =>
        obtain ⟨k', hk', hcount⟩ := hex
        have hj : f.json.data = k'.data ++ ompStr.data := by
          rw [hk', strDataAppend]
        have hc1 : countOcc ompStr.data (k'.data ++ ompStr.data) = 1 := by
          rw [← hj]
          exact hcount
        have hdata : (pyReplace f.json ompStr "").data = k'.data := by
          show scanSubF (litMatch ompStr.data []) f.json.data.length f.json.data =
            k'.data
          rw [hj]
          exact scanSubF_strip_tail ompStr.data (by decide) k'.data
            ((k'.data ++ ompStr.data).length) (Nat.le_refl _) hc1
        rw [hdata]
        exact countOcc_zero_of_append k'.data ompStr.data (by decide) hc1

/-- Witness for C9 at a field whose source tag already carries the
marker. -/
theorem c9_witness :
    ∃ k : String,
      emitFieldLine ⟨"Path", "string", "path,omitempty", "desc"⟩ =
        "\t" ++ "Path" ++ " " ++ "string" ++ " `json:\"" ++ (k ++ ompStr) ++
          "\" jsonschema:\"" ++ "desc" ++ "\"`\n" ∧
        countOcc ompStr.data k.data = 0 :=
  (c9_json_tags ⟨"Path", "string", "path,omitempty", "desc"⟩
    (Or.inr ⟨"path", by decide, by decide⟩) (by decide)).2
